import Mathlib

/-!
# s3zipper: the download handler

A shallow embedding of `s3zipper.go`: the manifest types, the file-name
sanitiser (`makeSafeFileName`), `getFilesFromRedis` and `handler`.

The handler talks to Redis, to S3 over HTTP and to the zip writer that wraps
the response.  None of these live in the repository, so each call the handler
makes is answered by an `Env`, and the handler is a function from an `Env`
and a `Request` to the ordered list of effects (`Event`) it performs.

Go strings coming out of `json.Unmarshal` are valid UTF-8; they are modelled
by Lean `String`s.  `int64` values are `Int`s, wrapped explicitly where the
handler does arithmetic on them.
-/

namespace S3Zipper

/-! ## Data model -/

/-- One manifest entry (`type redisFile struct`).  `TrackID` and `PlaylistID`
are `int64` in the source. -/
structure redisFile where
  FileName : String
  Folder : String
  S3Path : String
  TrackID : Int
  PlaylistID : Int
  PlaylistName : String
deriving DecidableEq, Repr

/-- The manifest (`type redisDLObject struct`). -/
structure redisDLObject where
  Name : String
  Files : List redisFile
deriving DecidableEq, Repr

/-- The zero value of `redisDLObject`, what a named result holds before it is
assigned. -/
def redisDLObject.zero : redisDLObject := ⟨"", []⟩

/-! ## Strings and integers -/

/-- The character class of
`makeSafeFileName = regexp.MustCompile("[#<>:\"/\\|?*\\\\]")` (a raw string
in the source): `#`, `<`, `>`, `:`, `"`, `/`, the escaped `|`, `?`, `*` and
the escaped backslash. -/
def makeSafeFileName : List Char :=
  ['#', '<', '>', ':', '"', '/', '|', '?', '*', '\\']

/-- Replacement of every match of a one-character-class regexp: scanning left
to right, a character in the class is a match and is replaced by `repl`, any
other character is copied. -/
def replaceAllChars (cls repl : List Char) : List Char → List Char
  | [] => []
  | c :: cs =>
    if c ∈ cls then repl ++ replaceAllChars cls repl cs
    else c :: replaceAllChars cls repl cs

/-- The method `re.ReplaceAllString(src, repl)` for a regexp `re` that is a
single character class.  (`repl` is only ever `""` in the source, so the
`$`-expansion of the replacement never comes into play.) -/
def ReplaceAllString (re : List Char) (src repl : String) : String :=
  ⟨replaceAllChars re repl.data src.data⟩

/-- The function `strings.HasSuffix(s, suffix)`:
`len(s) >= len(suffix) && s[len(s)-len(suffix):] == suffix`.  Go compares
bytes; on valid UTF-8 a byte suffix that is itself valid UTF-8 is a suffix of
the character sequence, and the handler only asks for the suffix "/". -/
def HasSuffix (s suffix : String) : Bool :=
  decide (suffix.data.length ≤ s.data.length) &&
    (s.data.drop (s.data.length - suffix.data.length) == suffix.data)

/-- Decimal rendering of a signed integer: `strconv.FormatInt(i, 10)` and
`strconv.Itoa(i)`. -/
def formatDecimal (i : Int) : String :=
  if i < 0 then "-" ++ Nat.repr i.natAbs else Nat.repr i.toNat

/-- Two's-complement wrap of an integer to `bits` bits: the value a signed
`bits`-bit machine integer holds after an overflowing operation or a
narrowing conversion. -/
def wrapInt (bits : Nat) (x : Int) : Int :=
  (x + 2 ^ (bits - 1)) % 2 ^ bits - 2 ^ (bits - 1)

/-! ## The archive path of one entry (handler, loop body) -/

/-- The two statements the handler applies to `file.FileName` (lines 222-225,
with "Track") and to `file.PlaylistName` (lines 247-250, with "Playlist"):
`name = makeSafeFileName.ReplaceAllString(raw, "")` followed by
`if name == "" { name = fallback }`. -/
def safeName (fallback raw : String) : String :=
  let name := ReplaceAllString makeSafeFileName raw ""
  if name = "" then fallback else name

/-- Lines 221-225 of the handler: "Build safe file file name". -/
def safeFileNameOf (file : redisFile) : String :=
  safeName "Track" file.FileName

/-- Lines 241-260 of the handler: "Build a good path for the file within the
zip", given the `safeFileName` computed at the top of the iteration. -/
def zipPathOf (file : redisFile) (safeFileName : String) : String :=
  let zipPath := ""
  -- Prefix playlist ID and name, if any
  let zipPath :=
    if file.PlaylistID > 0 then
      let zipPath := zipPath ++ (formatDecimal file.PlaylistID ++ ".")
      -- Build Safe Project Name
      let PlaylistName := safeName "Playlist" file.PlaylistName
      zipPath ++ (PlaylistName ++ "/")
    else zipPath
  -- Prefix folder name, if any
  let zipPath :=
    if file.Folder ≠ "" then
      let zipPath := zipPath ++ file.Folder
      if !HasSuffix zipPath "/" then zipPath ++ "/" else zipPath
    else zipPath
  zipPath ++ safeFileName

/-! ## The environment and the effects -/

/-- Reply of `redis.Do("GET", key)`, a pair `(result, err)` in the source. -/
inductive RedisReply where
  /-- The call failed: `err != nil`. -/
  | error (msg : String)
  /-- The key is absent: `result == nil`. -/
  | null
  /-- The stored value, a `[]byte`. -/
  | bytes (payload : String)
  /-- A result that is not a `[]byte`. -/
  | other
deriving DecidableEq, Repr

/-- Result of `awsBucket.GetReader(path)`, a pair `(rdr, err)` in the source,
by the dynamic type of `err`. -/
inductive GetReaderResult where
  /-- The stream is open: `err == nil`. -/
  | ok
  /-- The error is a `*s3.Error` with this `StatusCode`. -/
  | s3Error (StatusCode : Int)
  /-- The error is of any other type; `msg` is `err.Error()`. -/
  | otherError (msg : String)
deriving DecidableEq, Repr

/-- How a call `io.Copy(f, rdr)` ends. -/
inductive CopyResult where
  /-- All bytes copied. -/
  | ok
  /-- It returned an error (the sink or the source failed). -/
  | err
  /-- It panicked; possible when `f` is the nil writer left by a failed
  `CreateHeader`. -/
  | panic
deriving DecidableEq, Repr

/-- Everything outside the repository that a run of the handler depends on.
Each collaborator answers as a function of the arguments of the call: the
store, the probe and the object store by key, URL and path, the zip writer
and the copy by the position of the entry in the manifest. -/
structure Env where
  /-- Reply of `redis.Do("GET", key)`. -/
  redisDo : String → RedisReply
  /-- The call `json.Unmarshal(payload, &filesObj)`: the object it leaves in
  `filesObj` and whether it returned no error. -/
  Unmarshal : String → redisDLObject × Bool
  /-- The function `awsBucket.URL(path)`. -/
  URL : String → String
  /-- The call `http.Head(url)`: `none` when it returns an error, otherwise
  `resp.ContentLength` (an `int64`). -/
  Head : String → Option Int
  /-- The call `awsBucket.GetReader(path)`. -/
  GetReader : String → GetReaderResult
  /-- Whether `zipWriter.CreateHeader(h)` succeeds in the iteration for the
  manifest entry at this index, for this `h.Name`. -/
  CreateHeader : Nat → String → Bool
  /-- How `io.Copy(f, rdr)` ends in the iteration for the manifest entry at
  this index; the flag says whether `f` is a writer (`CreateHeader`
  succeeded) rather than nil. -/
  Copy : Nat → Bool → CopyResult
  /-- Width of the platform `int`: 32 or 64. -/
  intBits : Nat
  /-- Rendering of `time.Since(start)` at the end of the request. -/
  elapsed : String

/-- The request fields the handler reads; `Query` is `r.URL.Query()`, a map
from parameter name to its values. -/
structure Request where
  Method : String
  RequestURI : String
  Query : List (String × List String)
deriving DecidableEq, Repr

/-- The effects of the handler, in the order it performs them. -/
inductive Event where
  /-- A call of `log.Printf` with this formatted line. -/
  | log (line : String)
  /-- A call `redis.Do(command, key)`. -/
  | redisDo (command key : String)
  /-- A call `http.Head(url)`. -/
  | httpHead (url : String)
  /-- A call `http.Error(w, body, code)`. -/
  | httpError (body : String) (code : Nat)
  /-- A call `w.Header().Add(key, value)`. -/
  | headerAdd (key value : String)
  /-- A call `awsBucket.GetReader(path)`. -/
  | getReader (path : String)
  /-- A call `zipWriter.CreateHeader(h)` with `h.Name`, `h.Method`, `h.Flags`,
  and whether it succeeded. -/
  | createHeader (name : String) (method flags : Nat) (ok : Bool)
  /-- A call `io.Copy(f, rdr)` for the stream of `path`. -/
  | ioCopy (path : String) (result : CopyResult)
  /-- A call `rdr.Close()` for the stream of `path`. -/
  | rdrClose (path : String)
  /-- The call `zipWriter.Close()`. -/
  | zipClose
deriving DecidableEq, Repr

/-- Put `evs` in front of the trace of the rest of a computation. -/
def emit {α : Type} (evs : List Event) (r : List Event × α) : List Event × α :=
  (evs ++ r.1, r.2)

/-! ## getFilesFromRedis -/

/-- The function `getFilesFromRedis(ref)`: the store call made and the named
results `(filesObj, err)` (`err` is `none` for nil, otherwise the error
text).  Taking the connection from the pool and closing it are not
recorded. -/
def getFilesFromRedis (env : Env) (ref : String) :
    List Event × redisDLObject × Option String :=
  let filesObj := redisDLObject.zero
  -- Get the value from Redis
  let key := "zip:" ++ ref
  emit [Event.redisDo "GET" key] <|
    match env.redisDo key with
    | RedisReply.error _ => ([], filesObj, some "Access Denied (link expired)")
    | RedisReply.null => ([], filesObj, some "Access Denied (link expired)")
    -- Convert to bytes
    | RedisReply.other => ([], filesObj, some "Error converting data stream to bytes.")
    | RedisReply.bytes resultByte =>
      -- Decode JSON
      let decoded := env.Unmarshal resultByte
      if decoded.2 then ([], decoded.1, none)
      else ([], decoded.1, some ("Error decoding json: " ++ resultByte))

/-! ## handler -/

/-- The first loop of the handler, "Calculate the total size of the files":
the running `totalZipSize` (an `int64`) is threaded through; the result is
`none` when a `HEAD` failed and the handler has answered 400 and returned. -/
def probeLoop (env : Env) : List redisFile → Int → List Event × Option Int
  | [], totalZipSize => ([], some totalZipSize)
  | file :: rest, totalZipSize =>
    let fullpath := env.URL file.S3Path
    match env.Head fullpath with
    | none =>
      ([Event.httpHead fullpath,
        Event.log ("Failed HEAD for file " ++ fullpath),
        Event.httpError "Failed to process files for download" 400], none)
    | some ContentLength =>
      emit [Event.httpHead fullpath] <|
        probeLoop env rest (wrapInt 64 (totalZipSize + ContentLength))

/-- The second loop of the handler, "Loop over files, add them to the zip
stream", from the entry at index `i` on.  The flag of the result is `false`
when a panic unwound the handler (there is no `recover` and no `defer` in it)
and `true` when the loop ran to its end. -/
def streamLoop (env : Env) : Nat → List redisFile → List Event × Bool
  | _, [] => ([], true)
  | i, file :: rest =>
    -- Build safe file file name
    let safeFileName := safeFileNameOf file
    -- Read file from S3, log any errors
    match env.GetReader file.S3Path with
    | GetReaderResult.s3Error StatusCode =>
      emit (Event.getReader file.S3Path ::
          (if StatusCode = 404 then [Event.log ("File not found. " ++ file.S3Path)]
           else [])) <|
        streamLoop env (i + 1) rest
    | GetReaderResult.otherError msg =>
      emit [Event.getReader file.S3Path,
          Event.log ("Error downloading \"" ++ file.S3Path ++ "\" - " ++ msg)] <|
        streamLoop env (i + 1) rest
    | GetReaderResult.ok =>
      -- Build a good path for the file within the zip
      let zipPath := zipPathOf file safeFileName
      -- zip.Deflate = 8, Flags = 0x800
      let created := env.CreateHeader i zipPath
      let copied := env.Copy i created
      let evs := [Event.getReader file.S3Path,
        Event.createHeader zipPath 8 0x800 created,
        Event.ioCopy file.S3Path copied]
      match copied with
      | CopyResult.panic => (evs, false)
      | _ =>
        emit (evs ++ [Event.rdrClose file.S3Path]) <| streamLoop env (i + 1) rest

/-- The function `handler(w, r)`, as the list of its effects. -/
def handler (env : Env) (r : Request) : List Event :=
  let started := [Event.log (r.Method ++ "\t" ++ r.RequestURI ++ "\tSTART")]
  let missing := [Event.httpError "Missing required parameters. Pass ?ref= to use." 500]
  -- Get "ref" URL params
  match r.Query.lookup "ref" with
  | none => started ++ missing
  | some [] => started ++ missing
  | some (ref :: _) =>
    let (lookup, fileObj, err) := getFilesFromRedis env ref
    let files := fileObj.Files
    match err with
    | some msg =>
      started ++ lookup ++
        [Event.httpError msg 403,
         Event.log (r.Method ++ "\t" ++ r.RequestURI ++ "\t" ++ msg)]
    | none =>
      let downloadName := fileObj.Name ++ "-videos"
      -- Calculate the total size of the files
      match probeLoop env files 0 with
      | (probes, none) => started ++ lookup ++ probes
      | (probes, some totalZipSize) =>
        -- Start processing the response
        let headers :=
          [Event.headerAdd "Content-Disposition"
             ("attachment; filename=\"" ++ downloadName ++ ".zip\""),
           Event.headerAdd "Content-Type" "application/zip",
           Event.headerAdd "Content-Length"
             (formatDecimal (wrapInt env.intBits totalZipSize))]
        -- Loop over files, add them to the zip stream
        match streamLoop env 0 files with
        | (streamed, false) => started ++ lookup ++ probes ++ headers ++ streamed
        | (streamed, true) =>
          started ++ lookup ++ probes ++ headers ++ streamed ++
            [Event.zipClose,
             Event.log (r.Method ++ "\t" ++ r.RequestURI ++ "\t" ++ env.elapsed)]

/-! ## Reading a trace -/

/-- The `h.Name` of a `CreateHeader` call that succeeded: an entry of the
archive. -/
def Event.entryName : Event → Option String
  | Event.createHeader name _ _ true => some name
  | _ => none

/-- The path of a `GetReader` call. -/
def Event.openedPath : Event → Option String
  | Event.getReader path => some path
  | _ => none

/-- The path of a `rdr.Close()` call. -/
def Event.closedPath : Event → Option String
  | Event.rdrClose path => some path
  | _ => none

/-- The URL of a `http.Head` call. -/
def Event.probedURL : Event → Option String
  | Event.httpHead url => some url
  | _ => none

/-- The key of a `redis.Do` call. -/
def Event.lookupKey : Event → Option String
  | Event.redisDo _ key => some key
  | _ => none

/-- The line of a `log.Printf` call. -/
def Event.logLine : Event → Option String
  | Event.log line => some line
  | _ => none

/-- Body and status code of a `http.Error` call. -/
def Event.errorReply : Event → Option (String × Nat)
  | Event.httpError body code => some (body, code)
  | _ => none

/-- Key and value of a `w.Header().Add` call. -/
def Event.header : Event → Option (String × String)
  | Event.headerAdd key value => some (key, value)
  | _ => none

/-- Whether the event goes through the zip writer and so writes into the
response body. -/
def Event.isArchiveWrite : Event → Bool
  | Event.createHeader _ _ _ _ => true
  | Event.ioCopy _ _ => true
  | Event.zipClose => true
  | _ => false

/-- The entries of the archive, in the order they were created. -/
def archiveEntries (tr : List Event) : List String := tr.filterMap Event.entryName

/-- The object paths opened with `GetReader`, in order. -/
def opened (tr : List Event) : List String := tr.filterMap Event.openedPath

/-- The object paths whose stream was closed, in order. -/
def closed (tr : List Event) : List String := tr.filterMap Event.closedPath

/-- The URLs probed with `http.Head`, in order. -/
def probed (tr : List Event) : List String := tr.filterMap Event.probedURL

/-- The keys looked up in the key-value store, in order. -/
def lookups (tr : List Event) : List String := tr.filterMap Event.lookupKey

/-- The log lines, in order. -/
def logged (tr : List Event) : List String := tr.filterMap Event.logLine

/-- The `http.Error` replies, in order. -/
def errorReplies (tr : List Event) : List (String × Nat) := tr.filterMap Event.errorReply

/-- The response headers added by the handler, in order. -/
def headers (tr : List Event) : List (String × String) := tr.filterMap Event.header

/-- The values added under one header key. -/
def headerValues (key : String) (tr : List Event) : List String :=
  ((headers tr).filter (fun kv => kv.1 = key)).map Prod.snd

/-- The events that write into the response body through the zip writer. -/
def archiveWrites (tr : List Event) : List Event := tr.filter Event.isArchiveWrite

/-- Whether `GetReader` opens the object of this entry. -/
def opens (env : Env) (file : redisFile) : Bool :=
  env.GetReader file.S3Path = GetReaderResult.ok

/-- Whether `GetReader` fails for this entry, so that the loop skips it. -/
def skipped (env : Env) (file : redisFile) : Bool :=
  !opens env file

/-- The byte length the probe reports for this entry (0 when the probe
fails). -/
def probedLength (env : Env) (file : redisFile) : Int :=
  (env.Head (env.URL file.S3Path)).getD 0

/-- Whether the probe of this entry succeeds. -/
def probeOK (env : Env) (file : redisFile) : Bool :=
  (env.Head (env.URL file.S3Path)).isSome

/-! ## The specification's wording -/

/-- The disallowed set of the specification, `# < > : " / \ | ? *`. -/
def disallowed (c : Char) : Bool :=
  c = '#' || c = '<' || c = '>' || c = ':' || c = '"' || c = '/' || c = '\\' ||
    c = '|' || c = '?' || c = '*'

/-- The specification's `sanitize(raw)` with the caller's fallback: delete the
disallowed characters, keep every other character in place, and return the
fallback when nothing is left. -/
def sanitize (fallback raw : String) : String :=
  let kept := raw.data.filter (fun c => !disallowed c)
  if kept = [] then fallback else ⟨kept⟩

/-- The specification's `buildArchivePath(entry)`: the playlist prefix when
`playlistId > 0`, the folder with a trailing `/` when it is non-empty, the
sanitised file name. -/
def buildArchivePath (entry : redisFile) : String :=
  (if entry.PlaylistID > 0 then
      formatDecimal entry.PlaylistID ++ "." ++ sanitize "Playlist" entry.PlaylistName ++ "/"
    else "") ++
  (if entry.Folder = "" then ""
    else if entry.Folder.data.getLast? = some '/' then entry.Folder
    else entry.Folder ++ "/") ++
  sanitize "Track" entry.FileName

/-- The log line the streaming loop writes when it skips this entry, if it
writes one: the `switch` on the error of `GetReader` (lines 230-237). -/
def skipLog (env : Env) (file : redisFile) : Option String :=
  match env.GetReader file.S3Path with
  | GetReaderResult.ok => none
  | GetReaderResult.s3Error StatusCode =>
    if StatusCode = 404 then some ("File not found. " ++ file.S3Path) else none
  | GetReaderResult.otherError msg =>
    some ("Error downloading \"" ++ file.S3Path ++ "\" - " ++ msg)

/-! ## Concrete runs -/

/-- An environment for concrete runs: the store holds one manifest, under the
reference `abc`; the probe, the object store and the sink are given. -/
def fixtureEnv (manifest : redisDLObject) (head : String → Option Int)
    (getReader : String → GetReaderResult) (create : Nat → String → Bool)
    (copy : Nat → Bool → CopyResult) : Env where
  redisDo := fun key => if key = "zip:abc" then RedisReply.bytes "manifest" else RedisReply.null
  Unmarshal := fun _ => (manifest, true)
  URL := fun path => "https://bucket/" ++ path
  Head := head
  GetReader := getReader
  CreateHeader := create
  Copy := copy
  intBits := 64
  elapsed := "1ms"

/-- The request `GET /?ref=abc`. -/
def requestABC : Request := ⟨"GET", "/?ref=abc", [("ref", ["abc"])]⟩

/-- The request `GET /?ref=gone`, for a reference the fixture store does not
hold. -/
def requestGone : Request := ⟨"GET", "/?ref=gone", [("ref", ["gone"])]⟩

/-- The request `GET /`, without a `ref` parameter. -/
def requestNoRef : Request := ⟨"GET", "/", []⟩

/-- The request `GET /?ref=`, with an empty `ref` parameter. -/
def requestEmptyRef : Request := ⟨"GET", "/?ref=", [("ref", [""])]⟩

/-- The entry with this file name and object path, no folder, no playlist. -/
def plainFile (fileName path : String) : redisFile := ⟨fileName, "", path, 0, 0, ""⟩

/-- Scenario A: the manifest `Show` with the single entry `A.mp3`. -/
def manifestA : redisDLObject := ⟨"Show", [plainFile "A.mp3" "a.mp3"]⟩

/-- Scenario A: every probe reports 5 bytes, every open and write succeeds. -/
def envA : Env :=
  fixtureEnv manifestA (fun _ => some 5) (fun _ => GetReaderResult.ok) (fun _ _ => true)
    (fun _ _ => CopyResult.ok)

/-- Scenario C and its kin: a manifest of two entries. -/
def manifestAB : redisDLObject := ⟨"Show", [plainFile "A.mp3" "a.mp3", plainFile "B.mp3" "b.mp3"]⟩

/-- Scenario C: the object store answers not-found (a `*s3.Error` with status
404) for the second entry. -/
def envC : Env :=
  fixtureEnv manifestAB (fun _ => some 5)
    (fun path => if path = "b.mp3" then GetReaderResult.s3Error 404 else GetReaderResult.ok)
    (fun _ _ => true) (fun _ _ => CopyResult.ok)

/-- Scenario E: an entry of playlist 120990, "Test Playlist". -/
def fileE : redisFile := ⟨"A.mp3", "", "a.mp3", 0, 120990, "Test Playlist"⟩

/-- Two objects of `2^62` bytes each: every probe succeeds and the sum of the
lengths is `2^63`. -/
def envHuge : Env :=
  fixtureEnv manifestAB (fun _ => some (2 ^ 62)) (fun _ => GetReaderResult.ok)
    (fun _ _ => true) (fun _ _ => CopyResult.ok)

/-- The probe of the second entry fails. -/
def envProbeFails : Env :=
  fixtureEnv manifestAB
    (fun url => if url = "https://bucket/b.mp3" then none else some 5)
    (fun _ => GetReaderResult.ok) (fun _ _ => true) (fun _ _ => CopyResult.ok)

/-- The object store refuses the only entry with a `*s3.Error` of status
403. -/
def envForbidden : Env :=
  fixtureEnv manifestA (fun _ => some 5) (fun _ => GetReaderResult.s3Error 403)
    (fun _ _ => true) (fun _ _ => CopyResult.ok)

/-- The sink breaks while the first entry is copied (the client has gone).
The first `CreateHeader` has succeeded and `io.Copy` returns the write error;
the zip writer keeps the error of its sink, so `CreateHeader` fails for every
later entry and leaves a nil writer, on which `io.Copy` panics when the
object yields its first bytes. -/
def envBrokenSink : Env :=
  fixtureEnv manifestAB (fun _ => some 5) (fun _ => GetReaderResult.ok)
    (fun i _ => decide (i = 0))
    (fun _ writer => if writer then CopyResult.err else CopyResult.panic)

/-- A file name of 65536 bytes: the letter `a`, 65536 times. -/
def longName : String := ⟨List.replicate 65536 'a'⟩

/-- A manifest whose single entry has the 65536-byte file name. -/
def manifestLong : redisDLObject := ⟨"Show", [plainFile longName "a.mp3"]⟩

/-- A healthy sink in front of the real zip writer: `CreateHeader` refuses a
name longer than 65535 bytes (the length field of the header has 16 bits) and
accepts any other; `io.Copy` into the writer succeeds and panics on the nil
writer, every object having 5 bytes. -/
def envLong : Env :=
  fixtureEnv manifestLong (fun _ => some 5) (fun _ => GetReaderResult.ok)
    (fun _ name => decide (name.utf8ByteSize ≤ 65535))
    (fun _ writer => if writer then CopyResult.ok else CopyResult.panic)

/-! ## Lemmas

### The sanitiser and the archive path -/

theorem mem_makeSafeFileName (c : Char) : c ∈ makeSafeFileName ↔ disallowed c = true := by
  simp only [makeSafeFileName, disallowed, List.mem_cons, List.mem_singleton, Bool.or_eq_true,
    decide_eq_true_eq, List.not_mem_nil, or_false]
  tauto

theorem replaceAllChars_nil_eq_filter (l : List Char) :
    replaceAllChars makeSafeFileName [] l = l.filter (fun c => !disallowed c) := by
  induction l with
  | nil => rfl
  | cons c cs ih =>
    by_cases h : disallowed c = true
    · have hm : c ∈ makeSafeFileName := (mem_makeSafeFileName c).2 h
      simp [replaceAllChars, hm, h, ih]
    · have hm : c ∉ makeSafeFileName := fun hc => h ((mem_makeSafeFileName c).1 hc)
      simp [replaceAllChars, hm, h, ih]

theorem safeName_eq_sanitize (fallback raw : String) :
    safeName fallback raw = sanitize fallback raw := by
  have hd : ("" : String).data = [] := rfl
  unfold safeName sanitize ReplaceAllString
  rw [hd, replaceAllChars_nil_eq_filter]
  by_cases h : raw.data.filter (fun c => !disallowed c) = []
  · simp [h]
  · have : (String.mk (raw.data.filter (fun c => !disallowed c))) ≠ "" := by
      intro hc
      apply h
      have := congrArg String.data hc
      simpa using this
    simp [h, this]

theorem filter_allowed_idem (l : List Char) :
    (l.filter (fun c => !disallowed c)).filter (fun c => !disallowed c) =
      l.filter (fun c => !disallowed c) := by
  rw [List.filter_filter]; simp

theorem sanitize_idem (fallback : String)
    (hclean : fallback.data.filter (fun c => !disallowed c) = fallback.data)
    (hne : fallback.data ≠ []) (x : String) :
    sanitize fallback (sanitize fallback x) = sanitize fallback x := by
  by_cases h : x.data.filter (fun c => !disallowed c) = []
  · have hx : sanitize fallback x = fallback := by simp [sanitize, h]
    rw [hx]
    simp [sanitize, hclean, hne]
  · have hx : sanitize fallback x = ⟨x.data.filter (fun c => !disallowed c)⟩ := by
      simp [sanitize, h]
    rw [hx]
    simp only [sanitize, filter_allowed_idem, h, if_false]

theorem drop_length_pred_concat (init : List Char) (x : Char) :
    (init ++ [x]).drop ((init ++ [x]).length - 1) = [x] := by
  have h : (init ++ [x]).length - 1 = init.length := by simp
  rw [h, List.drop_left]

theorem hasSuffix_slash (s : String) :
    HasSuffix s "/" = decide (s.data.getLast? = some '/') := by
  have hs : ("/" : String).data = ['/'] := rfl
  unfold HasSuffix
  rw [hs]
  rcases List.eq_nil_or_concat s.data with hl | ⟨init, x, hl⟩
  · rw [hl]; rfl
  · rw [hl, List.concat_eq_append]
    have h1 : (['/'] : List Char).length = 1 := rfl
    rw [h1, drop_length_pred_concat]
    by_cases hx : x = '/' <;> simp [hx]

theorem str_data_ne_nil (s : String) (h : s ≠ "") : s.data ≠ [] := by
  intro hc
  apply h
  apply String.ext
  simpa using hc

theorem zipPathOf_eq_buildArchivePath (file : redisFile) :
    zipPathOf file (safeFileNameOf file) = buildArchivePath file := by
  unfold zipPathOf buildArchivePath safeFileNameOf
  simp only [safeName_eq_sanitize, hasSuffix_slash]
  by_cases hp : file.PlaylistID > 0 <;> by_cases hf : file.Folder = ""
  · simp [hp, hf, String.append_assoc]
  · have hne := str_data_ne_nil _ hf
    simp only [hp, hf, if_true, if_false, ne_eq, not_false_eq_true, String.data_append,
      List.getLast?_append_of_ne_nil _ hne]
    by_cases hl : file.Folder.data.getLast? = some '/'
    · simp [hl, String.append_assoc]
    · simp [hl, String.append_assoc]
  · simp [hp, hf]
  · have hne := str_data_ne_nil _ hf
    simp only [hp, hf, if_true, if_false, ne_eq, not_false_eq_true, String.data_append,
      List.getLast?_append_of_ne_nil _ hne]
    by_cases hl : file.Folder.data.getLast? = some '/'
    · simp [hl, String.append_assoc]
    · simp [hl, String.append_assoc]

/-! ### Wrapping arithmetic -/

theorem wrapInt64_add (a b : Int) : wrapInt 64 (wrapInt 64 a + b) = wrapInt 64 (a + b) := by
  unfold wrapInt
  norm_num
  omega

theorem wrapInt_wrapInt64 (bits : Nat) (hb : bits = 32 ∨ bits = 64) (x : Int)
    (hlo : -(2 : Int) ^ (bits - 1) ≤ x) (hhi : x < (2 : Int) ^ (bits - 1)) :
    wrapInt bits (wrapInt 64 x) = x := by
  rcases hb with hb | hb <;> subst hb <;> unfold wrapInt <;> norm_num at hlo hhi ⊢ <;> omega

/-! ### The probe loop -/

theorem probeLoop_ok (env : Env) (files : List redisFile)
    (h : ∀ f ∈ files, probeOK env f = true) (total : Int) :
    probeLoop env files (wrapInt 64 total) =
      (files.map (fun f => Event.httpHead (env.URL f.S3Path)),
        some (wrapInt 64 (total + (files.map (probedLength env)).sum))) := by
  induction files generalizing total with
  | nil => simp [probeLoop]
  | cons f rest ih =>
    have hf : probeOK env f = true := h f (List.mem_cons_self _ _)
    have hrest : ∀ g ∈ rest, probeOK env g = true := fun g hg => h g (List.mem_cons_of_mem _ hg)
    unfold probeOK at hf
    obtain ⟨n, hn⟩ := Option.isSome_iff_exists.1 hf
    simp only [probeLoop, hn, wrapInt64_add, ih hrest, emit, List.map_cons, List.sum_cons,
      probedLength, Option.getD_some, List.singleton_append, add_assoc]

theorem probeLoop_fail (env : Env) (files : List redisFile)
    (h : ∃ f ∈ files, probeOK env f = false) (total : Int) :
    ∃ pre f post, files = pre ++ f :: post ∧ (∀ g ∈ pre, probeOK env g = true) ∧
      probeOK env f = false ∧
      probeLoop env files total =
        (pre.map (fun g => Event.httpHead (env.URL g.S3Path)) ++
          [Event.httpHead (env.URL f.S3Path),
           Event.log ("Failed HEAD for file " ++ env.URL f.S3Path),
           Event.httpError "Failed to process files for download" 400], none) := by
  induction files generalizing total with
  | nil => obtain ⟨f, hf, _⟩ := h; cases hf
  | cons f rest ih =>
    cases hn : env.Head (env.URL f.S3Path) with
    | none =>
      refine ⟨[], f, rest, rfl, by simp, by simp [probeOK, hn], ?_⟩
      simp [probeLoop, hn]
    | some n =>
      have hrest : ∃ g ∈ rest, probeOK env g = false := by
        obtain ⟨g, hg, hgf⟩ := h
        rcases List.mem_cons.1 hg with rfl | hg
        · simp [probeOK, hn] at hgf
        · exact ⟨g, hg, hgf⟩
      obtain ⟨pre, g, post, hsplit, hpre, hg, hloop⟩ := ih hrest (wrapInt 64 (total + n))
      refine ⟨f :: pre, g, post, by simp [hsplit], ?_, hg, ?_⟩
      · intro x hx
        rcases List.mem_cons.1 hx with rfl | hx
        · simp [probeOK, hn]
        · exact hpre x hx
      · simp [probeLoop, hn, hloop, emit]

/-! ### The streaming loop -/

theorem opens_iff (env : Env) (f : redisFile) :
    opens env f = true ↔ env.GetReader f.S3Path = GetReaderResult.ok := by
  simp [opens]

theorem streamLoop_entries (env : Env) (files : List redisFile) (i : Nat)
    (hsink : ∀ j f, files[j]? = some f → opens env f = true →
      env.CreateHeader (i + j) (buildArchivePath f) = true ∧
        env.Copy (i + j) true ≠ CopyResult.panic) :
    archiveEntries (streamLoop env i files).1 =
        (files.filter (opens env)).map buildArchivePath ∧
      (streamLoop env i files).2 = true := by
  induction files generalizing i with
  | nil => simp [streamLoop, archiveEntries]
  | cons f rest ih =>
    have hrest : ∀ j g, rest[j]? = some g → opens env g = true →
        env.CreateHeader (i + 1 + j) (buildArchivePath g) = true ∧
          env.Copy (i + 1 + j) true ≠ CopyResult.panic := by
      intro j g hj hg
      have h := hsink (j + 1) g (by simpa using hj) hg
      have hidx : i + (j + 1) = i + 1 + j := by omega
      rwa [hidx] at h
    obtain ⟨ih1, ih2⟩ := ih (i + 1) hrest
    unfold archiveEntries at ih1 ⊢
    cases hg : env.GetReader f.S3Path with
    | ok =>
      obtain ⟨hc, hcp⟩ := hsink 0 f (by simp) ((opens_iff env f).2 hg)
      rw [Nat.add_zero] at hc hcp
      cases hcopy : env.Copy i true with
      | panic => exact absurd hcopy hcp
      | ok =>
        simp [streamLoop, hg, hc, hcopy, emit, opens, ih1, ih2, Event.entryName,
          zipPathOf_eq_buildArchivePath]
      | err =>
        simp [streamLoop, hg, hc, hcopy, emit, opens, ih1, ih2, Event.entryName,
          zipPathOf_eq_buildArchivePath]
    | s3Error code =>
      by_cases h404 : code = 404 <;>
        simp [streamLoop, hg, emit, opens, ih1, ih2, Event.entryName, h404]
    | otherError msg =>
      simp [streamLoop, hg, emit, opens, ih1, ih2, Event.entryName]

/-- A run of the loop that was not cut by a panic opened every entry in order
and closed every stream it opened. -/
theorem streamLoop_finished (env : Env) (files : List redisFile) (i : Nat)
    (hfin : (streamLoop env i files).2 = true) :
    opened (streamLoop env i files).1 = files.map redisFile.S3Path ∧
      closed (streamLoop env i files).1 =
        (files.filter (opens env)).map redisFile.S3Path := by
  induction files generalizing i with
  | nil => simp [streamLoop, opened, closed]
  | cons f rest ih =>
    unfold opened closed at *
    cases hg : env.GetReader f.S3Path with
    | ok =>
      cases hcopy : env.Copy i (env.CreateHeader i (zipPathOf f (safeFileNameOf f))) with
      | panic => simp [streamLoop, hg, hcopy] at hfin
      | ok =>
        have hfin1 : (streamLoop env (i + 1) rest).2 = true := by
          simpa [streamLoop, hg, hcopy, emit] using hfin
        obtain ⟨ih1, ih2⟩ := ih (i + 1) hfin1
        simp [streamLoop, hg, hcopy, emit, opens, ih1, ih2, Event.openedPath,
          Event.closedPath]
      | err =>
        have hfin1 : (streamLoop env (i + 1) rest).2 = true := by
          simpa [streamLoop, hg, hcopy, emit] using hfin
        obtain ⟨ih1, ih2⟩ := ih (i + 1) hfin1
        simp [streamLoop, hg, hcopy, emit, opens, ih1, ih2, Event.openedPath,
          Event.closedPath]
    | s3Error code =>
      have hfin1 : (streamLoop env (i + 1) rest).2 = true := by
        simpa [streamLoop, hg, emit] using hfin
      obtain ⟨ih1, ih2⟩ := ih (i + 1) hfin1
      by_cases h404 : code = 404 <;>
        simp [streamLoop, hg, emit, opens, ih1, ih2, Event.openedPath,
          Event.closedPath, h404]
    | otherError msg =>
      have hfin1 : (streamLoop env (i + 1) rest).2 = true := by
        simpa [streamLoop, hg, emit] using hfin
      obtain ⟨ih1, ih2⟩ := ih (i + 1) hfin1
      simp [streamLoop, hg, emit, opens, ih1, ih2, Event.openedPath, Event.closedPath]

/-- A run over `pre ++ rest` that gets through `pre` goes on with `rest`. -/
theorem streamLoop_append (env : Env) (pre rest : List redisFile) (i : Nat)
    (hfin : (streamLoop env i pre).2 = true) :
    streamLoop env i (pre ++ rest) =
      emit (streamLoop env i pre).1 (streamLoop env (i + pre.length) rest) := by
  induction pre generalizing i with
  | nil => simp [streamLoop, emit]
  | cons f pre ih =>
    have hidx : i + (pre.length + 1) = i + 1 + pre.length := by omega
    cases hg : env.GetReader f.S3Path with
    | ok =>
      cases hcopy : env.Copy i (env.CreateHeader i (zipPathOf f (safeFileNameOf f))) with
      | panic => simp [streamLoop, hg, hcopy] at hfin
      | ok =>
        have hfin1 : (streamLoop env (i + 1) pre).2 = true := by
          simpa [streamLoop, hg, hcopy, emit] using hfin
        simp [streamLoop, hg, hcopy, emit, ih (i + 1) hfin1, hidx]
      | err =>
        have hfin1 : (streamLoop env (i + 1) pre).2 = true := by
          simpa [streamLoop, hg, hcopy, emit] using hfin
        simp [streamLoop, hg, hcopy, emit, ih (i + 1) hfin1, hidx]
    | s3Error code =>
      have hfin1 : (streamLoop env (i + 1) pre).2 = true := by
        simpa [streamLoop, hg, emit] using hfin
      simp [streamLoop, hg, emit, ih (i + 1) hfin1, hidx]
    | otherError msg =>
      have hfin1 : (streamLoop env (i + 1) pre).2 = true := by
        simpa [streamLoop, hg, emit] using hfin
      simp [streamLoop, hg, emit, ih (i + 1) hfin1, hidx]

/-- Every iteration starts by opening the object of its entry. -/
theorem streamLoop_opens_first (env : Env) (g : redisFile) (rest : List redisFile) (i : Nat) :
    ∃ later, opened (streamLoop env i (g :: rest)).1 = g.S3Path :: later := by
  unfold opened
  cases hg : env.GetReader g.S3Path with
  | ok =>
    cases hcopy : env.Copy i (env.CreateHeader i (zipPathOf g (safeFileNameOf g))) <;>
      simp [streamLoop, hg, hcopy, emit, Event.openedPath]
  | s3Error code =>
    by_cases h404 : code = 404 <;> simp [streamLoop, hg, emit, Event.openedPath, h404]
  | otherError msg => simp [streamLoop, hg, emit, Event.openedPath]

/-- One iteration whose object opens and whose `io.Copy` returns. -/
theorem streamLoop_cons_returned (env : Env) (f : redisFile) (rest : List redisFile) (i : Nat)
    (hopen : opens env f = true)
    (hreturn : env.Copy i (env.CreateHeader i (buildArchivePath f)) ≠ CopyResult.panic) :
    streamLoop env i (f :: rest) =
      emit [Event.getReader f.S3Path,
          Event.createHeader (buildArchivePath f) 8 0x800
            (env.CreateHeader i (buildArchivePath f)),
          Event.ioCopy f.S3Path (env.Copy i (env.CreateHeader i (buildArchivePath f))),
          Event.rdrClose f.S3Path]
        (streamLoop env (i + 1) rest) := by
  have hg := (opens_iff env f).1 hopen
  cases hcopy : env.Copy i (env.CreateHeader i (buildArchivePath f)) with
  | panic => exact absurd hcopy hreturn
  | ok => simp [streamLoop, hg, hcopy, emit, zipPathOf_eq_buildArchivePath]
  | err => simp [streamLoop, hg, hcopy, emit, zipPathOf_eq_buildArchivePath]

/-- One iteration whose object opens and whose `io.Copy` panics. -/
theorem streamLoop_cons_panicked (env : Env) (f : redisFile) (rest : List redisFile) (i : Nat)
    (hopen : opens env f = true)
    (hpanic : env.Copy i (env.CreateHeader i (buildArchivePath f)) = CopyResult.panic) :
    streamLoop env i (f :: rest) =
      ([Event.getReader f.S3Path,
        Event.createHeader (buildArchivePath f) 8 0x800
          (env.CreateHeader i (buildArchivePath f)),
        Event.ioCopy f.S3Path CopyResult.panic], false) := by
  have hg := (opens_iff env f).1 hopen
  simp [streamLoop, hg, hpanic, zipPathOf_eq_buildArchivePath]

/-- The log lines of the streaming loop: one for every entry whose open
failed with a 404 `*s3.Error` or with an error of another type, none for a
`*s3.Error` of another status. -/
theorem streamLoop_logged (env : Env)
    (hp : ∀ i w, env.Copy i w ≠ CopyResult.panic) (files : List redisFile) (i : Nat) :
    logged (streamLoop env i files).1 = files.filterMap (skipLog env) := by
  induction files generalizing i with
  | nil => rfl
  | cons f rest ih =>
    have ih1 := ih (i + 1)
    unfold logged at ih1 ⊢
    cases hg : env.GetReader f.S3Path with
    | ok =>
      have hcp := hp i (env.CreateHeader i (zipPathOf f (safeFileNameOf f)))
      cases hcopy : env.Copy i (env.CreateHeader i (zipPathOf f (safeFileNameOf f))) with
      | panic => exact absurd hcopy hcp
      | ok => simp [streamLoop, hg, hcopy, emit, ih1, Event.logLine, skipLog]
      | err => simp [streamLoop, hg, hcopy, emit, ih1, Event.logLine, skipLog]
    | s3Error code =>
      by_cases h404 : code = 404 <;>
        simp [streamLoop, hg, emit, ih1, Event.logLine, skipLog, h404]
    | otherError msg => simp [streamLoop, hg, emit, ih1, Event.logLine, skipLog]

/-! ### The 65536-byte name -/

theorem utf8Len_replicate_a (n : Nat) : String.utf8Len (List.replicate n 'a') = n := by
  induction n with
  | zero => rfl
  | succ n ih =>
    have ha : Char.utf8Size 'a' = 1 := by decide
    rw [List.replicate_succ, String.utf8Len_cons, ih, ha]

theorem filter_allowed_replicate_a (n : Nat) :
    (List.replicate n 'a').filter (fun c => !disallowed c) = List.replicate n 'a' := by
  apply List.filter_eq_self.2
  intro c hc
  have hca : c = 'a' := List.eq_of_mem_replicate hc
  subst hca
  decide

theorem longName_utf8ByteSize : longName.utf8ByteSize = 65536 := by
  unfold longName
  rw [String.utf8ByteSize_mk, utf8Len_replicate_a]

theorem envLong_CreateHeader (i : Nat) (name : String) :
    envLong.CreateHeader i name = decide (name.utf8ByteSize ≤ 65535) := rfl

theorem buildArchivePath_longName :
    buildArchivePath (plainFile longName "a.mp3") = longName := by
  have hne : List.replicate 65536 'a' ≠ [] := by
    intro h
    have hl := congrArg List.length h
    rw [List.length_replicate] at hl
    exact absurd hl (by decide)
  have hs : sanitize "Track" longName = longName := by
    unfold sanitize longName
    simp only [filter_allowed_replicate_a, hne, if_false]
  have hf : (plainFile longName "a.mp3").FileName = longName := rfl
  have hp : ¬ (plainFile longName "a.mp3").PlaylistID > 0 := by decide
  have hd : (plainFile longName "a.mp3").Folder = "" := rfl
  unfold buildArchivePath
  rw [if_neg hp, if_pos hd, hf, hs]
  apply String.ext
  simp [String.data_append]

theorem streamLoop_envLong :
    streamLoop envLong 0 manifestLong.Files =
      ([Event.getReader "a.mp3",
        Event.createHeader longName 8 0x800 false,
        Event.ioCopy "a.mp3" CopyResult.panic], false) := by
  have hcreate : envLong.CreateHeader 0 longName = false := by
    rw [envLong_CreateHeader, longName_utf8ByteSize]
    decide
  have hpanic : envLong.Copy 0
      (envLong.CreateHeader 0 (buildArchivePath (plainFile longName "a.mp3"))) =
        CopyResult.panic := by
    rw [buildArchivePath_longName, hcreate]
    rfl
  have h := streamLoop_cons_panicked envLong (plainFile longName "a.mp3") [] 0 rfl hpanic
  rw [buildArchivePath_longName, hcreate] at h
  exact h

/-! ### The handler, once the manifest is resolved -/

theorem getFilesFromRedis_bytes (env : Env) (ref payload : String) (obj : redisDLObject)
    (hr : env.redisDo ("zip:" ++ ref) = RedisReply.bytes payload)
    (hu : env.Unmarshal payload = (obj, true)) :
    getFilesFromRedis env ref = ([Event.redisDo "GET" ("zip:" ++ ref)], obj, none) := by
  simp [getFilesFromRedis, hr, hu, emit]

theorem handler_probe_failed (env : Env) (r : Request) (ref payload : String)
    (more : List String) (obj : redisDLObject) (probes : List Event)
    (hq : r.Query.lookup "ref" = some (ref :: more))
    (hr : env.redisDo ("zip:" ++ ref) = RedisReply.bytes payload)
    (hu : env.Unmarshal payload = (obj, true))
    (hprobe : probeLoop env obj.Files 0 = (probes, none)) :
    handler env r =
      [Event.log (r.Method ++ "\t" ++ r.RequestURI ++ "\tSTART"),
       Event.redisDo "GET" ("zip:" ++ ref)] ++ probes := by
  simp [handler, hq, getFilesFromRedis_bytes env ref payload obj hr hu, hprobe]

theorem handler_served (env : Env) (r : Request) (ref payload : String)
    (more : List String) (obj : redisDLObject)
    (hq : r.Query.lookup "ref" = some (ref :: more))
    (hr : env.redisDo ("zip:" ++ ref) = RedisReply.bytes payload)
    (hu : env.Unmarshal payload = (obj, true))
    (hprobe : ∀ f ∈ obj.Files, probeOK env f = true) :
    handler env r =
      [Event.log (r.Method ++ "\t" ++ r.RequestURI ++ "\tSTART"),
       Event.redisDo "GET" ("zip:" ++ ref)] ++
      obj.Files.map (fun f => Event.httpHead (env.URL f.S3Path)) ++
      [Event.headerAdd "Content-Disposition"
         ("attachment; filename=\"" ++ (obj.Name ++ "-videos") ++ ".zip\""),
       Event.headerAdd "Content-Type" "application/zip",
       Event.headerAdd "Content-Length"
         (formatDecimal (wrapInt env.intBits
           (wrapInt 64 ((obj.Files.map (probedLength env)).sum))))] ++
      (streamLoop env 0 obj.Files).1 ++
      (if (streamLoop env 0 obj.Files).2 then
        [Event.zipClose,
         Event.log (r.Method ++ "\t" ++ r.RequestURI ++ "\t" ++ env.elapsed)]
       else []) := by
  have h0 : (0 : Int) = wrapInt 64 0 := by unfold wrapInt; norm_num
  have hp := probeLoop_ok env obj.Files hprobe 0
  rw [← h0, zero_add] at hp
  cases hs : streamLoop env 0 obj.Files with
  | mk tr fin =>
    cases fin <;>
      simp [handler, hq, getFilesFromRedis_bytes env ref payload obj hr hu, hp, hs]

/-! ### Reading the trace of a list of probes -/

theorem filterMap_map_none {α β γ : Type} (f : β → Option γ) (g : α → β) (l : List α)
    (h : ∀ a, f (g a) = none) : (l.map g).filterMap f = [] := by
  induction l with
  | nil => rfl
  | cons a l ih => simp [List.filterMap_cons, h a, ih]

theorem filter_map_false {α β : Type} (p : β → Bool) (g : α → β) (l : List α)
    (h : ∀ a, p (g a) = false) : (l.map g).filter p = [] := by
  induction l with
  | nil => rfl
  | cons a l ih => simp [h a, ih]

theorem probed_map_httpHead (env : Env) (files : List redisFile) :
    probed (files.map (fun f => Event.httpHead (env.URL f.S3Path))) =
      files.map (fun f => env.URL f.S3Path) := by
  induction files with
  | nil => rfl
  | cons f rest ih =>
    unfold probed at ih ⊢
    simp [List.filterMap_cons, Event.probedURL, ih]

/-! ## The claims -/

/-- Claim C6. For every manifest in which the metadata probe of at least one
entry errors, the handler answers through `http.Error` with status 400 as its
last effect, adds no response header (so neither `Content-Length` nor
`Content-Disposition`), opens no object stream and writes nothing through the
zip writer; the probes made are those of the entries up to the first failing
one, in manifest order. -/
theorem probe_failure_aborts (env : Env) (r : Request) (ref payload : String)
    (more : List String) (obj : redisDLObject)
    (hq : r.Query.lookup "ref" = some (ref :: more))
    (hr : env.redisDo ("zip:" ++ ref) = RedisReply.bytes payload)
    (hu : env.Unmarshal payload = (obj, true))
    (hfail : ∃ f ∈ obj.Files, probeOK env f = false) :
    errorReplies (handler env r) = [("Failed to process files for download", 400)] ∧
      (handler env r).getLast? =
        some (Event.httpError "Failed to process files for download" 400) ∧
      headers (handler env r) = [] ∧
      headerValues "Content-Length" (handler env r) = [] ∧
      headerValues "Content-Disposition" (handler env r) = [] ∧
      opened (handler env r) = [] ∧
      archiveWrites (handler env r) = [] ∧
      ∃ pre f post, obj.Files = pre ++ f :: post ∧
        (∀ g ∈ pre, probeOK env g = true) ∧ probeOK env f = false ∧
        probed (handler env r) = (pre ++ [f]).map (fun g => env.URL g.S3Path) := by
  obtain ⟨pre, f, post, hsplit, hpre, hf, hloop⟩ := probeLoop_fail env obj.Files hfail 0
  have htr := handler_probe_failed env r ref payload more obj _ hq hr hu hloop
  have hE : errorReplies (pre.map (fun g => Event.httpHead (env.URL g.S3Path))) = [] :=
    filterMap_map_none _ _ _ (fun _ => rfl)
  have hH : headers (pre.map (fun g => Event.httpHead (env.URL g.S3Path))) = [] :=
    filterMap_map_none _ _ _ (fun _ => rfl)
  have hO : opened (pre.map (fun g => Event.httpHead (env.URL g.S3Path))) = [] :=
    filterMap_map_none _ _ _ (fun _ => rfl)
  have hW : archiveWrites (pre.map (fun g => Event.httpHead (env.URL g.S3Path))) = [] :=
    filter_map_false _ _ _ (fun _ => rfl)
  have hP := probed_map_httpHead env pre
  have hhead : headers (handler env r) = [] := by
    unfold headers at hH ⊢
    rw [htr]
    simp [List.filterMap_append, List.filterMap_cons, Event.header, hH]
  refine ⟨?_, ?_, hhead, ?_, ?_, ?_, ?_, pre, f, post, hsplit, hpre, hf, ?_⟩
  · unfold errorReplies at hE ⊢
    rw [htr]
    simp [List.filterMap_append, List.filterMap_cons, Event.errorReply, hE]
  · have hlast : handler env r =
        ([Event.log (r.Method ++ "\t" ++ r.RequestURI ++ "\tSTART"),
          Event.redisDo "GET" ("zip:" ++ ref)] ++
          pre.map (fun g => Event.httpHead (env.URL g.S3Path)) ++
          [Event.httpHead (env.URL f.S3Path),
           Event.log ("Failed HEAD for file " ++ env.URL f.S3Path)]) ++
        [Event.httpError "Failed to process files for download" 400] := by
      rw [htr]; simp
    rw [hlast, List.getLast?_append]
    rfl
  · simp [headerValues, hhead]
  · simp [headerValues, hhead]
  · unfold opened at hO ⊢
    rw [htr]
    simp [List.filterMap_append, List.filterMap_cons, Event.openedPath, hO]
  · unfold archiveWrites at hW ⊢
    rw [htr]
    simp [List.filter_append, Event.isArchiveWrite, hW]
  · unfold probed at hP ⊢
    rw [htr]
    simp [List.filterMap_append, List.filterMap_cons, Event.probedURL, hP]

/-- Claim C6, on the manifest of two entries whose second probe fails. -/
theorem probe_failure_aborts_witness :
    errorReplies (handler envProbeFails requestABC) =
        [("Failed to process files for download", 400)] ∧
      headers (handler envProbeFails requestABC) = [] ∧
      opened (handler envProbeFails requestABC) = [] ∧
      archiveWrites (handler envProbeFails requestABC) = [] :=
  have h := probe_failure_aborts envProbeFails requestABC "abc" "manifest" [] manifestAB
    (by decide) (by decide) (by decide) (by decide)
  ⟨h.1, h.2.2.1, h.2.2.2.2.2.1, h.2.2.2.2.2.2.1⟩

/-- Claim C3. For every string `raw` and every fallback (so for "Track" and
for "Playlist"), the name the handler builds with
`makeSafeFileName.ReplaceAllString(raw, "")` and the empty-check is `raw` with
every occurrence of the ten characters `# < > : " / \ | ? *` deleted and all
other characters kept in order when that is non-empty, and the fallback when
it is empty; "A:B<C>.mp3" gives "ABC.mp3", and spaces and non-ASCII
characters stay. -/
theorem safeName_deletes_disallowed :
    (∀ fallback raw : String, safeName fallback raw = sanitize fallback raw) ∧
      (∀ c : Char, disallowed c = true ↔
        c ∈ ['#', '<', '>', ':', '"', '/', '\\', '|', '?', '*']) ∧
      safeName "Track" "A:B<C>.mp3" = "ABC.mp3" ∧
      safeName "Playlist" "Été 2015: a/b" = "Été 2015 ab" ∧
      safeName "Track" "?*" = "Track" ∧
      safeName "Playlist" "" = "Playlist" := by
  refine ⟨safeName_eq_sanitize, ?_, by decide, by decide, by decide, by decide⟩
  intro c
  simp only [disallowed, List.mem_cons, List.mem_singleton, Bool.or_eq_true,
    decide_eq_true_eq, List.not_mem_nil, or_false]
  tauto

/-- Claim C4. Sanitising is idempotent: for every string `x`, sanitising the
sanitised name again with the same fallback gives the same string, both for
file names (fallback "Track") and for playlist names (fallback
"Playlist"). -/
theorem safeName_idempotent (x : String) :
    safeName "Track" (safeName "Track" x) = safeName "Track" x ∧
      safeName "Playlist" (safeName "Playlist" x) = safeName "Playlist" x := by
  simp only [safeName_eq_sanitize]
  exact ⟨sanitize_idem "Track" (by decide) (by decide) x,
    sanitize_idem "Playlist" (by decide) (by decide) x⟩

/-- Claim C2. For every entry, the archive path the handler computes is the
concatenation of (1) the decimal `PlaylistID`, ".", the sanitised
`PlaylistName` (fallback "Playlist") and "/" when `PlaylistID > 0`, (2) the
folder, followed by "/" unless it already ends with "/", when it is
non-empty, and (3) the sanitised `FileName` (fallback "Track"); the entry of
playlist 120990 "Test Playlist" with file "A.mp3" and no folder gets
"120990.Test Playlist/A.mp3". -/
theorem zipPath_is_buildArchivePath :
    (∀ file : redisFile, zipPathOf file (safeFileNameOf file) = buildArchivePath file) ∧
      zipPathOf fileE (safeFileNameOf fileE) = "120990.Test Playlist/A.mp3" :=
  ⟨zipPathOf_eq_buildArchivePath, by decide⟩

theorem headers_streamLoop (env : Env) (files : List redisFile) (i : Nat) :
    headers (streamLoop env i files).1 = [] := by
  induction files generalizing i with
  | nil => rfl
  | cons f rest ih =>
    have ih1 := ih (i + 1)
    unfold headers at ih1 ⊢
    cases hg : env.GetReader f.S3Path with
    | ok =>
      cases hcopy : env.Copy i (env.CreateHeader i (zipPathOf f (safeFileNameOf f))) <;>
        simp [streamLoop, hg, hcopy, emit, ih1, Event.header]
    | s3Error code =>
      by_cases h404 : code = 404 <;> simp [streamLoop, hg, emit, ih1, Event.header, h404]
    | otherError msg => simp [streamLoop, hg, emit, ih1, Event.header]

theorem headers_served (env : Env) (r : Request) (ref payload : String)
    (more : List String) (obj : redisDLObject)
    (hq : r.Query.lookup "ref" = some (ref :: more))
    (hr : env.redisDo ("zip:" ++ ref) = RedisReply.bytes payload)
    (hu : env.Unmarshal payload = (obj, true))
    (hprobe : ∀ f ∈ obj.Files, probeOK env f = true) :
    headers (handler env r) =
      [("Content-Disposition", "attachment; filename=\"" ++ (obj.Name ++ "-videos") ++ ".zip\""),
       ("Content-Type", "application/zip"),
       ("Content-Length", formatDecimal (wrapInt env.intBits
           (wrapInt 64 ((obj.Files.map (probedLength env)).sum))))] := by
  have htr := handler_served env r ref payload more obj hq hr hu hprobe
  have hP : headers (obj.Files.map (fun f => Event.httpHead (env.URL f.S3Path))) = [] :=
    filterMap_map_none _ _ _ (fun _ => rfl)
  have hS := headers_streamLoop env obj.Files 0
  rw [htr]
  unfold headers at hP hS ⊢
  cases hfin : (streamLoop env 0 obj.Files).2 <;>
    simp [List.filterMap_append, List.filterMap_cons, Event.header, hP, hS]

/-- Claim C5, as stated, fails: with two objects of `2^62` bytes every probe
succeeds and the lengths sum to `2^63`, but the `int64` total has wrapped and
the handler declares a negative `Content-Length`. -/
theorem content_length_wraps :
    manifestAB.Files.all (probeOK envHuge) = true ∧
      formatDecimal ((manifestAB.Files.map (probedLength envHuge)).sum) =
        "9223372036854775808" ∧
      headerValues "Content-Length" (handler envHuge requestABC) =
        ["-9223372036854775808"] ∧
      headerValues "Content-Length" (handler envHuge requestABC) ≠
        [formatDecimal ((manifestAB.Files.map (probedLength envHuge)).sum)] := by
  decide

/-- Claim C5, amended. For every manifest whose probes all succeed and whose
probed byte lengths sum to a value in the range of the platform `int` (32 or
64 bits), the handler adds `Content-Length` once, with the decimal rendering
of that sum over all manifest entries (whether or not an entry is later
skipped), `Content-Type: application/zip` once, and `Content-Disposition:
attachment; filename="<manifest name>-videos.zip"` once. -/
theorem content_length_is_probed_total (env : Env) (r : Request) (ref payload : String)
    (more : List String) (obj : redisDLObject)
    (hq : r.Query.lookup "ref" = some (ref :: more))
    (hr : env.redisDo ("zip:" ++ ref) = RedisReply.bytes payload)
    (hu : env.Unmarshal payload = (obj, true))
    (hprobe : ∀ f ∈ obj.Files, probeOK env f = true)
    (hbits : env.intBits = 32 ∨ env.intBits = 64)
    (hlo : -(2 : Int) ^ (env.intBits - 1) ≤ (obj.Files.map (probedLength env)).sum)
    (hhi : (obj.Files.map (probedLength env)).sum < (2 : Int) ^ (env.intBits - 1)) :
    headerValues "Content-Length" (handler env r) =
        [formatDecimal ((obj.Files.map (probedLength env)).sum)] ∧
      headerValues "Content-Type" (handler env r) = ["application/zip"] ∧
      headerValues "Content-Disposition" (handler env r) =
        ["attachment; filename=\"" ++ obj.Name ++ "-" ++ "videos" ++ ".zip\""] := by
  have hh := headers_served env r ref payload more obj hq hr hu hprobe
  have hw := wrapInt_wrapInt64 env.intBits hbits _ hlo hhi
  refine ⟨?_, ?_, ?_⟩
  · rw [headerValues, hh, hw]
    simp +decide [List.filter_cons]
  · rw [headerValues, hh]
    simp +decide [List.filter_cons]
  · rw [headerValues, hh]
    have hname : "attachment; filename=\"" ++ (obj.Name ++ "-videos") ++ ".zip\"" =
        "attachment; filename=\"" ++ obj.Name ++ "-" ++ "videos" ++ ".zip\"" := by
      apply String.ext
      simp [String.data_append]
    rw [hname]
    simp +decide [List.filter_cons]

/-- Claim C5, amended, on Scenario A: one entry `a.mp3` of probed length 5
gives `Content-Length: 5`. -/
theorem content_length_is_probed_total_witness :
    headerValues "Content-Length" (handler envA requestABC) = ["5"] ∧
      headerValues "Content-Type" (handler envA requestABC) = ["application/zip"] ∧
      headerValues "Content-Disposition" (handler envA requestABC) =
        ["attachment; filename=\"Show-videos.zip\""] :=
  have h := content_length_is_probed_total envA requestABC "abc" "manifest" [] manifestA
    (by decide) (by decide) (by decide) (by decide) (by decide) (by decide) (by decide)
  ⟨h.1.trans (by decide), h.2.1, h.2.2.trans (by decide)⟩

/-- Claim C7. For every reference key `ref`: when the store has no value for
the key `"zip:" + ref`, or the store call itself errors, `getFilesFromRedis`
fails with the error "Access Denied (link expired)", and the handler answers
through `http.Error` with status 403 and that text, which contains "Access
Denied"; it makes no probe, adds no header and writes nothing through the zip
writer: its effects are the start log line, the one store call, the reply and
the log line of the error. -/
theorem absent_manifest_denied (env : Env) (r : Request) (ref : String)
    (more : List String)
    (hq : r.Query.lookup "ref" = some (ref :: more))
    (hstore : env.redisDo ("zip:" ++ ref) = RedisReply.null ∨
      ∃ msg, env.redisDo ("zip:" ++ ref) = RedisReply.error msg) :
    (getFilesFromRedis env ref).2.2 = some "Access Denied (link expired)" ∧
      handler env r =
        [Event.log (r.Method ++ "\t" ++ r.RequestURI ++ "\tSTART"),
         Event.redisDo "GET" ("zip:" ++ ref),
         Event.httpError "Access Denied (link expired)" 403,
         Event.log (r.Method ++ "\t" ++ r.RequestURI ++ "\t" ++
           "Access Denied (link expired)")] ∧
      errorReplies (handler env r) = [("Access Denied (link expired)", 403)] ∧
      "Access Denied".data <:+: "Access Denied (link expired)".data ∧
      probed (handler env r) = [] ∧
      headers (handler env r) = [] ∧
      archiveWrites (handler env r) = [] := by
  have hget : getFilesFromRedis env ref =
      ([Event.redisDo "GET" ("zip:" ++ ref)], redisDLObject.zero,
        some "Access Denied (link expired)") := by
    rcases hstore with h | ⟨msg, h⟩ <;> simp [getFilesFromRedis, h, emit]
  have htr : handler env r =
      [Event.log (r.Method ++ "\t" ++ r.RequestURI ++ "\tSTART"),
       Event.redisDo "GET" ("zip:" ++ ref),
       Event.httpError "Access Denied (link expired)" 403,
       Event.log (r.Method ++ "\t" ++ r.RequestURI ++ "\t" ++
         "Access Denied (link expired)")] := by
    simp [handler, hq, hget]
  refine ⟨by rw [hget], htr, ?_, by decide, ?_, ?_, ?_⟩ <;> rw [htr] <;> rfl

/-- Claim C7, on Scenario B: the reference `abc` is absent from the store. -/
theorem absent_manifest_denied_witness :
    handler envA requestGone =
      [Event.log "GET\t/?ref=gone\tSTART",
       Event.redisDo "GET" "zip:gone",
       Event.httpError "Access Denied (link expired)" 403,
       Event.log "GET\t/?ref=gone\tAccess Denied (link expired)"] :=
  (absent_manifest_denied envA requestGone "gone" [] (by decide)
    (Or.inl (by decide))).2.1

/-- Claim C8, evaluated on the code. A request without a `ref` parameter is
answered with the fixed message and no store lookup, but with status 500,
which is not in the range 400 to 499; a request whose `ref` is the empty
string is not rejected: the store is asked for the key `zip:` and the reply
is the 403 of an absent manifest. -/
theorem missing_ref_replies_500 :
    (∀ env : Env, handler env requestNoRef =
      [Event.log "GET\t/\tSTART",
       Event.httpError "Missing required parameters. Pass ?ref= to use." 500]) ∧
      ¬ (400 ≤ 500 ∧ 500 ≤ 499) ∧
      handler envA requestEmptyRef =
        [Event.log "GET\t/?ref=\tSTART",
         Event.redisDo "GET" "zip:",
         Event.httpError "Access Denied (link expired)" 403,
         Event.log "GET\t/?ref=\tAccess Denied (link expired)"] :=
  ⟨fun _ => rfl, by decide, by decide⟩

/-- Claim C9, evaluated on the code. When `GetReader` fails with a `*s3.Error`
whose status is not 404 (here 403), the loop skips the entry without any log
record: one entry is skipped and nothing is logged. -/
theorem s3_error_not_logged :
    (manifestA.Files.filter (skipped envForbidden)).length = 1 ∧
      (streamLoop envForbidden 0 manifestA.Files).1 = [Event.getReader "a.mp3"] ∧
      logged (streamLoop envForbidden 0 manifestA.Files).1 = [] := by
  decide

/-- Claim C1, as stated, fails: a manifest whose single entry has a file name
of 65536 bytes is resolved, probed and opened, and its archive path is that
name; the zip writer refuses a name over 65535 bytes, the handler discards
the error and `io.Copy` panics on the nil writer, so the archive has no
entry where the claim says one. -/
theorem long_name_is_not_archived :
    manifestLong.Files.all (probeOK envLong) = true ∧
      manifestLong.Files.all (opens envLong) = true ∧
      (manifestLong.Files.filter (opens envLong)).map buildArchivePath = [longName] ∧
      handler envLong requestABC =
        [Event.log "GET\t/?ref=abc\tSTART",
         Event.redisDo "GET" "zip:abc",
         Event.httpHead "https://bucket/a.mp3",
         Event.headerAdd "Content-Disposition" "attachment; filename=\"Show-videos.zip\"",
         Event.headerAdd "Content-Type" "application/zip",
         Event.headerAdd "Content-Length" "5",
         Event.getReader "a.mp3",
         Event.createHeader longName 8 0x800 false,
         Event.ioCopy "a.mp3" CopyResult.panic] ∧
      archiveEntries (handler envLong requestABC) = [] ∧
      archiveEntries (handler envLong requestABC) ≠
        (manifestLong.Files.filter (opens envLong)).map buildArchivePath := by
  have hpaths : (manifestLong.Files.filter (opens envLong)).map buildArchivePath =
      [longName] := by
    have hopen : opens envLong (plainFile longName "a.mp3") = true := rfl
    have hfiles : manifestLong.Files = [plainFile longName "a.mp3"] := rfl
    rw [hfiles, List.filter_cons, if_pos hopen, List.filter_nil, List.map_cons, List.map_nil,
      buildArchivePath_longName]
  have htr := handler_served envLong requestABC "abc" "manifest" [] manifestLong
    rfl (by decide) rfl (fun _ _ => rfl)
  rw [streamLoop_envLong] at htr
  have hrun : handler envLong requestABC =
      [Event.log "GET\t/?ref=abc\tSTART",
       Event.redisDo "GET" "zip:abc",
       Event.httpHead "https://bucket/a.mp3",
       Event.headerAdd "Content-Disposition" "attachment; filename=\"Show-videos.zip\"",
       Event.headerAdd "Content-Type" "application/zip",
       Event.headerAdd "Content-Length" "5",
       Event.getReader "a.mp3",
       Event.createHeader longName 8 0x800 false,
       Event.ioCopy "a.mp3" CopyResult.panic] := by
    rw [htr]
    rfl
  have hnone : archiveEntries (handler envLong requestABC) = [] := by
    rw [hrun]
    rfl
  refine ⟨rfl, rfl, hpaths, hrun, hnone, ?_⟩
  rw [hnone, hpaths]
  exact fun h => List.noConfusion h

/-- Claim C1, amended. Once the manifest is resolved and every probe has
succeeded, and provided that for every entry whose `GetReader` succeeds the
zip writer accepts the entry (`CreateHeader` succeeds for its archive path)
and `io.Copy` does not panic, the entries of the archive are
`buildArchivePath` applied, in manifest order and without deduplication, to
exactly the entries whose `GetReader` succeeded.  In particular, when every
open succeeds the archive has the `N` entries of the manifest in order, and
when the second of two entries cannot be opened it has exactly the first. -/
theorem archive_entries_follow_manifest (env : Env) (r : Request) (ref payload : String)
    (more : List String) (obj : redisDLObject)
    (hq : r.Query.lookup "ref" = some (ref :: more))
    (hr : env.redisDo ("zip:" ++ ref) = RedisReply.bytes payload)
    (hu : env.Unmarshal payload = (obj, true))
    (hprobe : ∀ f ∈ obj.Files, probeOK env f = true)
    (hsink : ∀ i f, obj.Files[i]? = some f → opens env f = true →
      env.CreateHeader i (buildArchivePath f) = true ∧
        env.Copy i true ≠ CopyResult.panic) :
    archiveEntries (handler env r) = (obj.Files.filter (opens env)).map buildArchivePath ∧
      ((∀ f ∈ obj.Files, opens env f = true) →
        archiveEntries (handler env r) = obj.Files.map buildArchivePath ∧
          (archiveEntries (handler env r)).length = obj.Files.length) ∧
      (∀ a b, obj.Files = [a, b] → opens env a = true → opens env b = false →
        archiveEntries (handler env r) = [buildArchivePath a]) := by
  have htr := handler_served env r ref payload more obj hq hr hu hprobe
  have hsink0 : ∀ j f, obj.Files[j]? = some f → opens env f = true →
      env.CreateHeader (0 + j) (buildArchivePath f) = true ∧
        env.Copy (0 + j) true ≠ CopyResult.panic := by
    intro j f hj hf
    rw [Nat.zero_add]
    exact hsink j f hj hf
  obtain ⟨hentries, hfin⟩ := streamLoop_entries env obj.Files 0 hsink0
  have hP : archiveEntries (obj.Files.map (fun f => Event.httpHead (env.URL f.S3Path))) = [] :=
    filterMap_map_none _ _ _ (fun _ => rfl)
  have hmain : archiveEntries (handler env r) =
      (obj.Files.filter (opens env)).map buildArchivePath := by
    rw [htr, hfin]
    unfold archiveEntries at hP hentries ⊢
    simp [List.filterMap_append, List.filterMap_cons, Event.entryName, hP, hentries]
  refine ⟨hmain, ?_, ?_⟩
  · intro hall
    have hfilter : obj.Files.filter (opens env) = obj.Files :=
      List.filter_eq_self.2 hall
    rw [hmain, hfilter]
    simp
  · intro a b hab ha hb
    rw [hmain, hab]
    simp [List.filter_cons, ha, hb]

/-- Claim C1, amended, on Scenario C: two entries, the second not found; the
archive holds the first only. -/
theorem archive_entries_follow_manifest_witness :
    archiveEntries (handler envC requestABC) = ["A.mp3"] :=
  ((archive_entries_follow_manifest envC requestABC "abc" "manifest" [] manifestAB
      (by decide) (by decide) (by decide) (by decide)
      (fun _ _ _ _ => ⟨rfl, fun h => CopyResult.noConfusion h⟩)).2.2
    (plainFile "A.mp3" "a.mp3") (plainFile "B.mp3" "b.mp3") rfl (by decide)
    (by decide)).trans (by decide)

/-- Claim C10, as stated, fails on a sink that breaks while the first entry
is copied: the copy of the first entry fails, yet the stream of the second
entry is opened; there creating the archive entry fails, `io.Copy` panics on
the nil writer, and the stream of the second entry is never closed. -/
theorem broken_sink_run :
    streamLoop envBrokenSink 0 manifestAB.Files =
      ([Event.getReader "a.mp3",
        Event.createHeader "A.mp3" 8 0x800 true,
        Event.ioCopy "a.mp3" CopyResult.err,
        Event.rdrClose "a.mp3",
        Event.getReader "b.mp3",
        Event.createHeader "B.mp3" 8 0x800 false,
        Event.ioCopy "b.mp3" CopyResult.panic], false) ∧
      opened (streamLoop envBrokenSink 0 manifestAB.Files).1 = ["a.mp3", "b.mp3"] ∧
      closed (streamLoop envBrokenSink 0 manifestAB.Files).1 = ["a.mp3"] := by
  decide

/-- Claim C10, amended. For every manifest and every entry index `i` the loop
reaches (no `io.Copy` has panicked before it) and whose object stream was
opened: whatever `CreateHeader` and `io.Copy` return at entry `i`, an error
included, the handler discards it; as long as `io.Copy` returns, the stream
opened for entry `i` is closed right after the copy and the loop does not
stop, it goes on with entry `i + 1` and opens its object stream, if there is
such an entry. -/
theorem returned_copy_keeps_loop_going (env : Env) (pre : List redisFile) (f : redisFile)
    (post : List redisFile)
    (hreach : (streamLoop env 0 pre).2 = true)
    (hopen : opens env f = true)
    (hreturn : env.Copy pre.length (env.CreateHeader pre.length (buildArchivePath f)) ≠
      CopyResult.panic) :
    (streamLoop env 0 (pre ++ f :: post)).1 =
        (streamLoop env 0 pre).1 ++
          [Event.getReader f.S3Path,
           Event.createHeader (buildArchivePath f) 8 0x800
             (env.CreateHeader pre.length (buildArchivePath f)),
           Event.ioCopy f.S3Path
             (env.Copy pre.length (env.CreateHeader pre.length (buildArchivePath f))),
           Event.rdrClose f.S3Path] ++
          (streamLoop env (pre.length + 1) post).1 ∧
      (pre ++ f :: post.take 1).map redisFile.S3Path <+:
        opened (streamLoop env 0 (pre ++ f :: post)).1 ∧
      (pre.filter (opens env) ++ [f]).map redisFile.S3Path <+:
        closed (streamLoop env 0 (pre ++ f :: post)).1 := by
  have happ := streamLoop_append env pre (f :: post) 0 hreach
  rw [Nat.zero_add, streamLoop_cons_returned env f post pre.length hopen hreturn] at happ
  obtain ⟨hopened, hclosed⟩ := streamLoop_finished env pre 0 hreach
  have htrace : (streamLoop env 0 (pre ++ f :: post)).1 =
      (streamLoop env 0 pre).1 ++
        [Event.getReader f.S3Path,
         Event.createHeader (buildArchivePath f) 8 0x800
           (env.CreateHeader pre.length (buildArchivePath f)),
         Event.ioCopy f.S3Path
           (env.Copy pre.length (env.CreateHeader pre.length (buildArchivePath f))),
         Event.rdrClose f.S3Path] ++
        (streamLoop env (pre.length + 1) post).1 := by
    rw [happ]
    simp [emit]
  refine ⟨htrace, ?_, ?_⟩
  · rw [htrace]
    unfold opened at hopened ⊢
    cases post with
    | nil =>
      refine ⟨[], ?_⟩
      simp [List.filterMap_append, List.filterMap_cons, Event.openedPath, hopened, streamLoop]
    | cons g rest =>
      obtain ⟨later, hlater⟩ := streamLoop_opens_first env g rest (pre.length + 1)
      unfold opened at hlater
      refine ⟨later, ?_⟩
      simp [List.filterMap_append, List.filterMap_cons, Event.openedPath, hopened, hlater]
  · rw [htrace]
    unfold closed at hclosed ⊢
    refine ⟨List.filterMap Event.closedPath (streamLoop env (pre.length + 1) post).1, ?_⟩
    simp [List.filterMap_append, List.filterMap_cons, Event.closedPath, hclosed]

/-- Claim C10, amended, on the sink that breaks while the first entry is
copied: the copy of the first entry returns the write error, its stream is
closed and the stream of the second entry is opened. -/
theorem returned_copy_keeps_loop_going_witness :
    envBrokenSink.Copy 0 (envBrokenSink.CreateHeader 0 "A.mp3") = CopyResult.err ∧
      ["a.mp3", "b.mp3"] <+: opened (streamLoop envBrokenSink 0 manifestAB.Files).1 ∧
      ["a.mp3"] <+: closed (streamLoop envBrokenSink 0 manifestAB.Files).1 :=
  have h := returned_copy_keeps_loop_going envBrokenSink [] (plainFile "A.mp3" "a.mp3")
    [plainFile "B.mp3" "b.mp3"] rfl (by decide) (by decide)
  ⟨by decide, h.2.1, h.2.2⟩

end S3Zipper
